import Mathlib

/-!
Verification of the soc_gui_netscan backend core.

This file gives a shallow embedding, in Lean 4, of the parts of the
`backend/app` package that the verified properties talk about:

* the scheduler substrate (`app/services/scheduler.py`),
* the worker loop and its persistence step (`app/worker/main.py`),
* the four-stage scan pipeline helpers (`app/services/scanner.py`),
* the firmware-enqueue guard (`app/api/firmware.py`),
* the AI-triage risk-score parser (`app/services/ai_triage.py`),
* the host export/import endpoints (`app/api/hosts.py`).

Python conventions are translated as follows: `None`-able values become
`Option`, Python string truthiness (`x or y`) becomes explicit helpers,
database tables become association lists keyed the way the code keys them
(hosts by `mac_address`, ports by `host_id`), and timestamps are abstract
`Nat` instants.  Each definition carries a comment naming the source
function and lines it embeds.
-/

namespace SocScan

/-- Python `a or b` on an optional string: `a` wins when it is a non-empty
string (truthy), otherwise `b`. -/
def pyOrStr (a : Option String) (b : String) : String :=
  match a with
  | some s => if s = "" then b else s
  | none => b

/-- Python `a or b` where both sides are optional strings (used for field
updates such as `dh.hostname or host.hostname`). -/
def pyOrOpt (a b : Option String) : Option String :=
  match a with
  | some s => if s = "" then b else some s
  | none => b

/-- Python `a if a else b` on an optional integer: `a` wins when it is a
non-zero integer (truthy), otherwise `b` (used for `os_accuracy`). -/
def pyOrNat (a b : Option Nat) : Option Nat :=
  match a with
  | some n => if n = 0 then b else some n
  | none => b

/-! ## Scheduler substrate (`app/services/scheduler.py`)

The `ScanScheduler` class defines exactly the methods below.  A Python
attribute access on an instance either resolves to a defined method or
raises `AttributeError`; `attrLookup` embeds that resolution step. -/

/-- Method names defined on `ScanScheduler` (scheduler.py lines 23-78). -/
def scanSchedulerMethods : List String :=
  ["start", "stop", "enqueue_scan", "dequeue_scan", "cancel_scan",
   "is_cancelled", "clear_cancel", "publish_progress"]

/-- Firmware-kind scheduler methods invoked by the firmware API
(`api/firmware.py` lines 88, 153, 305) and the firmware pipeline
(`services/firmware_pipeline.py` lines 172, 217, 291). -/
def firmwareSchedulerCalls : List String :=
  ["enqueue_firmware", "cancel_firmware", "is_cancelled_firmware",
   "clear_cancel_firmware"]

/-- Python attribute resolution on an object exposing `methods`: a defined
name resolves, any other name raises `AttributeError`. -/
def attrLookup (methods : List String) (attr : String) : Except String String :=
  if methods.contains attr then Except.ok attr
  else Except.error ("AttributeError: " ++ attr)

/-! ## Target size estimation and ping-sweep timeout
(`app/services/scanner.py` lines 100-131, 157-174)

`_estimate_host_count` first tries `ipaddress.IPv4Network(target,
strict=False)`; success of that library parse is modelled by the
`TargetSpec.cidr` constructor carrying the parsed `num_addresses`, and the
`ValueError` branch by `TargetSpec.plain` carrying the raw token. -/

/-- Classification of a target expression as `_estimate_host_count` sees it:
either it parses as an IPv4 network (with its address count) or it does
not. -/
inductive TargetSpec : Type
  | cidr (numAddresses : Nat)
  | plain (token : String)
deriving DecidableEq, Repr

/-- The function `_estimate_host_count` (scanner.py lines 100-116).  On Nat,
truncated subtraction makes `max (n - 2) 1` agree with the Python
`max(net.num_addresses - 2, 1)` for every `n`. -/
def estimateHostCount : TargetSpec → Nat
  | TargetSpec.cidr n => max (n - 2) 1
  | TargetSpec.plain t => if t.data.contains '-' then 256 else 1

/-- The function `_ping_sweep_timeout` (scanner.py lines 119-131). -/
def pingSweepTimeout (target : TargetSpec) (base : Nat) : Nat :=
  let hosts := estimateHostCount target
  if hosts ≤ 1 then base
  else if hosts ≤ 254 then max base 180
  else if hosts ≤ 510 then max base 300
  else if hosts ≤ 2046 then max base 600
  else max base 900

/-- The inline expression selecting the `--min-rate` value in
`stage1_ping_sweep` (scanner.py line 164): `"300" if host_count > 64 else
"100"`. -/
def minRateFlag (hostCount : Nat) : String :=
  if hostCount > 64 then "300" else "100"

/-! ## Firmware analysis status and the enqueue guard
(`app/models/firmware.py` lines 17-28, `app/api/firmware.py` lines 52-68
and 122-136) -/

/-- The `FirmwareStatus` enumeration (models/firmware.py lines 17-28). -/
inductive FirmwareStatus : Type
  | pending
  | downloading
  | downloaded
  | emba_queued
  | emba_running
  | emba_done
  | triaging
  | completed
  | failed
  | cancelled
deriving DecidableEq, Repr

/-- Statuses the enqueue guard filters on: the `status.in_([...])` list of
`start_firmware_analysis` (api/firmware.py lines 55-61); the batch endpoint
uses the same list (lines 126-131). -/
def guardStatuses : List FirmwareStatus :=
  [FirmwareStatus.pending, FirmwareStatus.downloading,
   FirmwareStatus.downloaded, FirmwareStatus.emba_running,
   FirmwareStatus.triaging]

/-- Modelled from the spec: the non-terminal statuses of a firmware job,
i.e. the enumerated order minus the terminal `completed`, `failed`,
`cancelled` (spec section 3, firmware-analysis-job invariant). -/
def specNonTerminal : List FirmwareStatus :=
  [FirmwareStatus.pending, FirmwareStatus.downloading,
   FirmwareStatus.downloaded, FirmwareStatus.emba_queued,
   FirmwareStatus.emba_running, FirmwareStatus.emba_done,
   FirmwareStatus.triaging]

/-- The guard of `start_firmware_analysis` (api/firmware.py lines 52-68):
the enqueue is rejected with HTTP 409 exactly when some existing analysis
row for the host has a status in `guardStatuses`. -/
def enqueueRejected (existing : List FirmwareStatus) : Bool :=
  existing.any (fun s => guardStatuses.contains s)

/-- Effect of one `start_firmware_analysis` call on the host's analysis
rows (api/firmware.py lines 63-84): when not rejected, a new `PENDING` row
is committed; when rejected, nothing is added. -/
def startFirmwareAnalysis (existing : List FirmwareStatus) : List FirmwareStatus :=
  if enqueueRejected existing then existing
  else existing ++ [FirmwareStatus.pending]

/-! ## Inventory persistence (`app/worker/main.py` lines 39-106)

The device inventory is keyed by `mac_address` (hosts) and `host_id`
(ports, a MAC string after migration 002).  Timestamps and scan ids are
abstract `Nat` values. -/

/-- Surrogate link-layer identifier for a host without an observed MAC:
`f"00:00:{dh.ip.replace('.', ':')[:8]}"` (worker/main.py line 45; the same
expression appears in scanner.py line 557).  Replacing the single-character
pattern `"."` is a character map, and the slice keeps the first 8
characters. -/
def surrogateMac (ip : String) : String :=
  "00:00:" ++ String.mk ((ip.data.map (fun c => if c = '.' then ':' else c)).take 8)

/-- Per-port service record produced by stage 4
(`_deep_scan_single`, scanner.py lines 504-526).  Stage 4 always populates
the `port`, `protocol` and `state` keys, so the worker `.get` defaults
(`port_num`, `"tcp"`, `"open"`) never fire and the fields are total here. -/
structure Svc : Type where
  port : Nat
  protocol : String
  state : String
  name : Option String
  product : Option String
  version : Option String
  extra_info : Option String
  cpe : Option String
  scripts : Option String
deriving DecidableEq, Repr

/-- The in-flight `DiscoveredHost` dataclass (scanner.py lines 35-49).
The `services` dict is carried as an association list keyed by port
number. -/
structure DiscoveredHost : Type where
  ip : String
  mac : Option String
  vendor : Option String
  hostname : Option String
  is_up : Bool
  response_time_ms : Option Nat
  open_ports : List Nat
  os_name : Option String
  os_family : Option String
  os_accuracy : Option Nat
  os_cpe : Option String
  services : List (Nat × Svc)
  nmap_xml : Option String
deriving DecidableEq, Repr

/-- A row of the `hosts` table (models/host.py; fields not read or written
by the claims under verification — the cached firmware columns — are
omitted).  `last_seen` is an abstract instant. -/
structure HostRow : Type where
  mac_address : String
  scan_id : Option Nat
  ip_address : String
  hostname : Option String
  vendor : Option String
  os_name : Option String
  os_family : Option String
  os_accuracy : Option Nat
  os_cpe : Option String
  is_up : Bool
  response_time_ms : Option Nat
  nmap_raw_xml : Option String
  firmware_url : Option String
  open_port_count : Nat
  last_seen : Nat
deriving DecidableEq, Repr

/-- A freshly constructed `Host(mac_address=mac)` with the column defaults
of models/host.py (`is_up` true, `open_port_count` 0, others NULL). -/
def HostRow.new (mac : String) : HostRow :=
  { mac_address := mac, scan_id := none, ip_address := "", hostname := none,
    vendor := none, os_name := none, os_family := none, os_accuracy := none,
    os_cpe := none, is_up := true, response_time_ms := none,
    nmap_raw_xml := none, firmware_url := none, open_port_count := 0,
    last_seen := 0 }

/-- A row of the `ports` table (models/port.py, with `host_id` a MAC string
per migration 002). -/
structure PortRow : Type where
  host_id : String
  port_number : Nat
  protocol : String
  state : String
  service_name : Option String
  service_version : Option String
  service_product : Option String
  service_extra_info : Option String
  service_cpe : Option String
  scripts_output : Option String
deriving DecidableEq, Repr

/-- The device inventory: the `hosts` and `ports` tables as row lists. -/
structure DB : Type where
  hosts : List HostRow
  ports : List PortRow
deriving DecidableEq, Repr

/-- Looks up a host row by primary key, as `select(Host).where(
Host.mac_address == mac)` does. -/
def findHost (hosts : List HostRow) (mac : String) : Option HostRow :=
  hosts.find? (fun r => r.mac_address = mac)

/-- Writes back a host row: an existing row with the same key is replaced
in place, otherwise the row is appended (`db.add(host)`). -/
def setHost (hosts : List HostRow) (h : HostRow) : List HostRow :=
  if hosts.any (fun r => r.mac_address = h.mac_address) then
    hosts.map (fun r => if r.mac_address = h.mac_address then h else r)
  else hosts ++ [h]

/-- Field updates applied to a host row by `_persist_results`
(worker/main.py lines 56-68); `pyOrOpt` and `pyOrNat` render the Python
`new or old` / `new if new else old` idioms. -/
def updateHostFromScan (host : HostRow) (scanId now : Nat)
    (dh : DiscoveredHost) : HostRow :=
  { host with
    scan_id := some scanId
    ip_address := dh.ip
    hostname := pyOrOpt dh.hostname host.hostname
    vendor := pyOrOpt dh.vendor host.vendor
    os_name := pyOrOpt dh.os_name host.os_name
    os_family := pyOrOpt dh.os_family host.os_family
    os_accuracy := pyOrNat dh.os_accuracy host.os_accuracy
    os_cpe := pyOrOpt dh.os_cpe host.os_cpe
    is_up := dh.is_up
    response_time_ms := dh.response_time_ms
    nmap_raw_xml := pyOrOpt dh.nmap_xml host.nmap_raw_xml
    last_seen := now
    open_port_count := dh.open_ports.length }

/-- Port rows written for one discovered host (worker/main.py lines 77-103):
one row per deep-scan service entry, and, only when the service map is
empty, one bare `state="open"` row per stage-3 open port. -/
def portsForHost (mac : String) (dh : DiscoveredHost) : List PortRow :=
  (dh.services.map (fun pair =>
    { host_id := mac, port_number := pair.2.port, protocol := pair.2.protocol,
      state := pair.2.state, service_name := pair.2.name,
      service_version := pair.2.version, service_product := pair.2.product,
      service_extra_info := pair.2.extra_info, service_cpe := pair.2.cpe,
      scripts_output := pair.2.scripts }))
  ++ (if dh.services.isEmpty && !dh.open_ports.isEmpty then
        dh.open_ports.map (fun pn =>
          { host_id := mac, port_number := pn, protocol := "tcp",
            state := "open", service_name := none, service_version := none,
            service_product := none, service_extra_info := none,
            service_cpe := none, scripts_output := none })
      else [])

/-- Persistence of a single discovered host by `_persist_results`
(worker/main.py lines 43-103): surrogate-or-observed MAC, host upsert,
delete of the old port rows for that MAC, insert of the fresh ones. -/
def persistOne (scanId now : Nat) (db : DB) (dh : DiscoveredHost) : DB :=
  let mac := pyOrStr dh.mac (surrogateMac dh.ip)
  let host0 := (findHost db.hosts mac).getD (HostRow.new mac)
  let host := updateHostFromScan host0 scanId now dh
  { hosts := setHost db.hosts host
    ports := db.ports.filter (fun p => p.host_id ≠ mac) ++ portsForHost mac dh }

/-- The full `_persist_results` loop (worker/main.py lines 39-106). -/
def persistResults (scanId now : Nat) (db : DB)
    (hs : List DiscoveredHost) : DB :=
  hs.foldl (persistOne scanId now) db

/-- Number of persisted port rows of a host that are in state `"open"`. -/
def countOpenPorts (db : DB) (mac : String) : Nat :=
  (db.ports.filter (fun p => p.host_id = mac ∧ p.state = "open")).length

/-! ## The worker per-job routine (`app/worker/main.py` lines 115-247)

`_process_scan` is embedded as a function from the loaded scan row, the
inventory, the cancel-set membership of the job id, and the abstract
behaviour of the external scan tools, to the effects the routine performs.
The progress hook `on_progress` (lines 128-157) tests
`scheduler.is_cancelled` and raises `asyncio.CancelledError` when the flag
is set; since the hook runs at the very start of stage 1, a set flag
aborts the pipeline at the first hook invocation, which is how
`cancelFlag = true` is rendered below.  Hook-level `scan_progress`
messages are not tracked; the `published` field records the events
published by `_process_scan` itself after the pipeline returns
(lines 208-213, 243-247 — the cancellation handler, lines 216-226,
publishes nothing). -/

/-- The `ScanStatus` enumeration (models/scan.py lines 16-21). -/
inductive ScanStatus : Type
  | pending
  | running
  | completed
  | failed
  | cancelled
deriving DecidableEq, Repr

/-- The fields of a `scans` row that `_process_scan` reads or writes. -/
structure ScanRow : Type where
  target : String
  status : ScanStatus
  current_stage : Nat
  stage_label : Option String
  hosts_discovered : Nat
  live_hosts : Nat
  open_ports_found : Nat
  started_at : Option Nat
  completed_at : Option Nat
  error_message : Option String
deriving DecidableEq, Repr

/-- An appended `scan_logs` row (models/scan.py lines 70-81). -/
structure LogEntry : Type where
  stage : Nat
  level : String
  message : String
deriving DecidableEq, Repr

/-- Behaviour of the external tool pipeline for one run, abstracting
`run_full_pipeline`: either it returns a host list or it raises a
non-cancellation exception with the given message. -/
inductive ToolRun : Type
  | ok (hosts : List DiscoveredHost)
  | raisesError (msg : String)
deriving DecidableEq, Repr

/-- Observable effects of one `_process_scan` call. -/
structure WorkerEffects : Type where
  scanRow : Option ScanRow
  db : DB
  logs : List LogEntry
  published : List String
  cancelCleared : Bool
  pipelineRan : Bool
deriving DecidableEq, Repr

/-- Python `str(e)[:2000]` truncation applied to a failure message
(worker/main.py line 237). -/
def truncateMsg (msg : String) : String := String.mk (msg.data.take 2000)

/-- Total ports counter returned by `_persist_results` (worker/main.py
lines 41, 91, 103, 106): the number of port rows added in this call. -/
def totalPortsOf (hs : List DiscoveredHost) : Nat :=
  (hs.map (fun dh =>
    (portsForHost (pyOrStr dh.mac (surrogateMac dh.ip)) dh).length)).sum

/-- The cancellation test of the progress hook (worker/main.py lines
135-136): with the job id in the cancel set the hook raises
`asyncio.CancelledError` before any database write or publish. -/
def onProgressRaisesCancel (cancelFlag : Bool) : Bool := cancelFlag

/-- The routine `_process_scan` (worker/main.py lines 115-247).  Inputs:
the loaded scan row (`none` when the id is unknown), the inventory, the
cancel-set membership of the id during the run, and the tool behaviour.
The first hook invocation carries the message `"Stage 1: Starting ping
sweep …"`, so on the cancellation path `current_stage[0]` is `1` when the
warning log entry is appended. -/
def processScan (scan0 : Option ScanRow) (db0 : DB) (scanId now : Nat)
    (cancelFlag : Bool) (tools : ToolRun) : WorkerEffects :=
  match scan0 with
  | none =>
      { scanRow := none, db := db0, logs := [], published := []
        cancelCleared := false, pipelineRan := false }
  | some scan =>
      if scan.status = ScanStatus.cancelled then
        { scanRow := some scan, db := db0, logs := [], published := []
          cancelCleared := false, pipelineRan := false }
      else
        let running := { scan with
          status := ScanStatus.running
          started_at := some now
          current_stage := 0 }
        if onProgressRaisesCancel cancelFlag then
          { scanRow := some { running with
              status := ScanStatus.cancelled
              completed_at := some now }
            db := db0
            logs := [{ stage := 1, level := "warning",
                       message := "Scan cancelled by user" }]
            published := []
            cancelCleared := true
            pipelineRan := true }
        else
          match tools with
          | ToolRun.ok hosts =>
              let db1 := persistResults scanId now db0 hosts
              let totalPorts := totalPortsOf hosts
              { scanRow := some { running with
                  status := ScanStatus.completed
                  completed_at := some now
                  current_stage := 4
                  stage_label := some "Completed"
                  hosts_discovered := hosts.length
                  live_hosts := (hosts.filter (fun h => h.is_up)).length
                  open_ports_found := totalPorts }
                db := db1
                logs := [{ stage := 4, level := "info",
                           message := "Scan completed" }]
                published := ["scan_completed"]
                cancelCleared := false
                pipelineRan := true }
          | ToolRun.raisesError msg =>
              { scanRow := some { running with
                  status := ScanStatus.failed
                  completed_at := some now
                  error_message := some (truncateMsg msg) }
                db := db0
                logs := [{ stage := 0, level := "error",
                           message := "Scan failed" }]
                published := ["scan_failed"]
                cancelCleared := false
                pipelineRan := true }

/-- Membership of the job id in `soc:scan_cancel` after the run: `srem` is
issued only when `cancelCleared` (worker/main.py line 225). -/
def cancelSetAfter (memberBefore : Bool) (eff : WorkerEffects) : Bool :=
  if eff.cancelCleared then false else memberBefore

/-! ## Stage 4 target selection and re-merge
(`app/services/scanner.py` lines 534-605)

`_deep_scan_single` is abstracted as a function `ds` on discovered hosts;
the adapter never changes the `ip` field, and on tool failure (lines
465-467) it returns the host unchanged, so the identity function is one of
its realizable behaviours.  The worker passes `existing_hosts`, the
MAC-to-`open_port_count` snapshot, as an association list here (`none`
when no map was supplied). -/

/-- The key under which a host is looked up in the prior-port-count map
(scanner.py line 557): the observed MAC or the synthesized surrogate. -/
def macKey (h : DiscoveredHost) : String :=
  pyOrStr h.mac (surrogateMac h.ip)

/-- Python `existing_hosts.get(mac, -1)` (scanner.py line 558). -/
def existingCount (m : List (String × Nat)) (mac : String) : Int :=
  match m.find? (fun p => p.1 = mac) with
  | some p => (p.2 : Int)
  | none => -1

/-- The skip test of scanner.py line 559: the looked-up count equals the
in-flight open-port count and is strictly positive. -/
def stage4Skip (m : List (String × Nat)) (h : DiscoveredHost) : Bool :=
  existingCount m (macKey h) = (h.open_ports.length : Int)
    && existingCount m (macKey h) > 0

/-- Hosts stage 4 actually deep-scans (scanner.py lines 550-565): hosts
with open ports, minus the skip-filtered ones when a non-empty map was
supplied (`if existing_hosts:` is false for `None` and for an empty
dict). -/
def stage4Targets (hosts : List DiscoveredHost)
    (existing : Option (List (String × Nat))) : List DiscoveredHost :=
  let candidates := hosts.filter (fun h => !h.open_ports.isEmpty)
  match existing with
  | none => candidates
  | some m =>
      if m.isEmpty then candidates
      else candidates.filter (fun h => !stage4Skip m h)

/-- The deep-scan result merged in for a given ip: results are written into
a dict keyed by ip in order (scanner.py lines 583-588), so the last result
with that ip wins. -/
def lastResultFor (results : List DiscoveredHost) (ip : String) :
    Option DiscoveredHost :=
  (results.filter (fun r => r.ip = ip)).getLast?

/-- The function `stage4_deep_scan` (scanner.py lines 534-605),
parameterized by the per-host adapter `ds` standing for
`_deep_scan_single`: select targets, scan them, and re-merge by ip against
the incoming list (lines 590-595); with no targets the list is returned
as-is (lines 573-576). -/
def stage4_deep_scan (ds : DiscoveredHost → DiscoveredHost)
    (hosts : List DiscoveredHost)
    (existing : Option (List (String × Nat))) : List DiscoveredHost :=
  let targets := stage4Targets hosts existing
  if targets.isEmpty then hosts
  else
    let results := targets.map ds
    hosts.map (fun h => (lastResultFor results h.ip).getD h)

/-- Modelled from the spec: the stage-4 filter as the claim words it — a
host is deep-scanned iff its open-port list is non-empty and, when a map
is supplied, its key does not map to a count equal to the open-port list
length and strictly greater than zero. -/
def specDeepScanned (existing : Option (List (String × Nat)))
    (h : DiscoveredHost) : Bool :=
  !h.open_ports.isEmpty &&
    (match existing with
     | none => true
     | some m =>
         !((m.find? (fun p => p.1 = macKey h)).any
            (fun p => p.2 = h.open_ports.length && p.2 > 0)))

/-! ## Risk-score parsing (`app/services/ai_triage.py` lines 100-114)

`_parse_risk_score` tries three regular expressions in order with
`re.search` and `re.IGNORECASE`.  The three patterns are implemented
directly: for each of them the greedy interpretation is deterministic
(after the digits of the captured number the pattern requires `[:\s]`,
`\s`, `/` or nothing, none of which is a digit, so no backtracking into
the quantifiers can create a match the greedy scan misses), and
`re.search` semantics is the scan over start positions in `reSearch`.
Case-insensitivity is rendered by lowering the subject first; the captured
group consists of digits and a dot, which lowering does not change.
Character classes are taken over ASCII (Python `\d`/`\s` on `str` also
accept some non-ASCII code points; no claim depends on those).  The Python
`float(...)` conversion of the captured decimal literal is modelled by its
exact rational value; the range tests against 0 and 10 agree with the
float tests for every literal within double precision. -/

/-- ASCII subset of the Python regex class `\s`. -/
def isSpaceChar (c : Char) : Bool :=
  c = ' ' || c = '\t' || c = '\n' || c = '\r' || c = '\x0b' || c = '\x0c'

/-- Lowercases a string into its character list (the effect of
`re.IGNORECASE` on matching against literal letters). -/
def lowerChars (s : String) : List Char :=
  s.data.map Char.toLower

/-- Greedy match of `(\d+(?:\.\d+)?)` at the head of the input, returning
the captured literal and the rest.  The optional fraction is taken exactly
when a dot followed by a digit is present (if it is present but the match
later fails, the no-fraction alternative places a dot where the patterns
require `\s`, `/` or end up captured by nothing, so it fails too). -/
def matchNumber (cs : List Char) : Option (String × List Char) :=
  let ds := cs.takeWhile Char.isDigit
  let rest := cs.dropWhile Char.isDigit
  if ds.isEmpty then none
  else
    match rest with
    | '.' :: rest2 =>
        let fs := rest2.takeWhile Char.isDigit
        if fs.isEmpty then some (String.mk ds, rest)
        else some (String.mk (ds ++ '.' :: fs), rest2.dropWhile Char.isDigit)
    | _ => some (String.mk ds, rest)

/-- Match of the suffix `\s*/\s*10` at the head of the input. -/
def matchSlash10 (cs : List Char) : Bool :=
  match cs.dropWhile isSpaceChar with
  | '/' :: r2 =>
      match r2.dropWhile isSpaceChar with
      | '1' :: '0' :: _ => true
      | _ => false
  | _ => false

/-- Match of a literal (already lowercased) at the head of the input. -/
def matchLit (lit cs : List Char) : Option (List Char) :=
  if lit.isPrefixOf cs then some (cs.drop lit.length) else none

/-- Anchored match of pattern 1, `Risk\s+Score[:\s]+(\d+(?:\.\d+)?)\s*/\s*10`
(ai_triage.py line 104), on lowercased input; returns the captured group. -/
def matchP1At (cs : List Char) : Option String :=
  (matchLit "risk".data cs).bind (fun r1 =>
    let sp := r1.takeWhile isSpaceChar
    if sp.isEmpty then none
    else
      (matchLit "score".data (r1.dropWhile isSpaceChar)).bind (fun r3 =>
        let cl := r3.takeWhile (fun c => c = ':' || isSpaceChar c)
        if cl.isEmpty then none
        else
          (matchNumber (r3.dropWhile (fun c => c = ':' || isSpaceChar c))).bind
            (fun pr => if matchSlash10 pr.2 then some pr.1 else none)))

/-- Anchored match of pattern 2, `(\d+(?:\.\d+)?)\s*/\s*10` (ai_triage.py
line 105). -/
def matchP2At (cs : List Char) : Option String :=
  (matchNumber cs).bind (fun pr => if matchSlash10 pr.2 then some pr.1 else none)

/-- Anchored match of pattern 3, `risk\s+score[:\s]+(\d+(?:\.\d+)?)`
(ai_triage.py line 106). -/
def matchP3At (cs : List Char) : Option String :=
  (matchLit "risk".data cs).bind (fun r1 =>
    let sp := r1.takeWhile isSpaceChar
    if sp.isEmpty then none
    else
      (matchLit "score".data (r1.dropWhile isSpaceChar)).bind (fun r3 =>
        let cl := r3.takeWhile (fun c => c = ':' || isSpaceChar c)
        if cl.isEmpty then none
        else (matchNumber (r3.dropWhile (fun c => c = ':' || isSpaceChar c))).map
          (fun pr => pr.1)))

/-- Semantics of `re.search`: try the anchored matcher at each start
position from the left and return the first capture. -/
def reSearch (m : List Char → Option String) : List Char → Option String
  | [] => m []
  | c :: rest =>
      match m (c :: rest) with
      | some g => some g
      | none => reSearch m rest

/-- Numeric value of a digit list. -/
def digitsVal (ds : List Char) : Nat :=
  ds.foldl (fun a c => a * 10 + (c.toNat - 48)) 0

/-- Exact value of a captured decimal literal `\d+(\.\d+)?`, the model of
Python `float(match.group(1))`. -/
def ratOfNum (s : String) : ℚ :=
  let ip := s.data.takeWhile Char.isDigit
  match s.data.dropWhile Char.isDigit with
  | '.' :: fs => (digitsVal ip : ℚ) + (digitsVal fs : ℚ) / ((10 : ℚ) ^ fs.length)
  | _ => (digitsVal ip : ℚ)

/-- The range test `0 <= score <= 10` (ai_triage.py line 112). -/
def scoreInRange (q : ℚ) : Bool :=
  decide (0 ≤ q) && decide (q ≤ 10)

/-- The pattern loop of `_parse_risk_score` (ai_triage.py lines 108-114):
for each pattern in order take the leftmost match; when its value is in
range return it, otherwise fall through to the next pattern. -/
def searchLoop : List (List Char → Option String) → List Char → Option ℚ
  | [], _ => none
  | m :: ms, cs =>
      match reSearch m cs with
      | some g =>
          if scoreInRange (ratOfNum g) then some (ratOfNum g)
          else searchLoop ms cs
      | none => searchLoop ms cs

/-- The function `_parse_risk_score` (ai_triage.py lines 100-114). -/
def parse_risk_score (report : String) : Option ℚ :=
  searchLoop [matchP1At, matchP2At, matchP3At] (lowerChars report)

/-! ## Host export and import (`app/api/hosts.py` lines 156-257)

Export serializes every host row into a JSON object; import walks
`devices.json` and upserts by MAC.  The device dict is modelled with
exactly the keys the importer reads (`mac_address`, the eight documented
fields, `is_up`, `open_port_count`, `last_seen`); export also writes keys
the importer never reads (`response_time_ms`, firmware caches,
`discovered_at`, `tags`, `ports`), which are omitted.  A JSON `null` value is `none`
(import distinguishes a missing `is_up`/`open_port_count` key from an
explicit `null`; exported dicts always carry the keys, so the two are
conflated here).  `datetime.fromisoformat` applied to an exported
`isoformat()` string returns the original instant, so on abstract
instants the round trip is the identity. -/

/-- The subset of an exported device object that `import_devices` reads. -/
structure DeviceDict : Type where
  mac_address : Option String
  ip_address : Option String
  hostname : Option String
  vendor : Option String
  os_name : Option String
  os_family : Option String
  os_accuracy : Option Nat
  os_cpe : Option String
  firmware_url : Option String
  is_up : Option Bool
  open_port_count : Option Nat
  last_seen : Option Nat
deriving DecidableEq, Repr

/-- The serializer `_host_to_dict` (api/hosts.py lines 156-191), restricted
to the keys import reads. -/
def hostToDict (h : HostRow) : DeviceDict :=
  { mac_address := some h.mac_address
    ip_address := some h.ip_address
    hostname := h.hostname
    vendor := h.vendor
    os_name := h.os_name
    os_family := h.os_family
    os_accuracy := h.os_accuracy
    os_cpe := h.os_cpe
    firmware_url := h.firmware_url
    is_up := some h.is_up
    open_port_count := some h.open_port_count
    last_seen := some h.last_seen }

/-- The endpoint `export_devices` (api/hosts.py lines 194-213): the
combined `devices.json` lists every host row serialized. -/
def export_devices (hosts : List HostRow) : List DeviceDict :=
  hosts.map hostToDict

/-- Per-field import update (api/hosts.py lines 239-243): a field in the
documented import set is overwritten only when the payload value is not
`None`. -/
def importField (payload : Option String) (old : Option String) : Option String :=
  match payload with
  | some v => some v
  | none => old

/-- Nat-valued variant of `importField` (for `os_accuracy`). -/
def importFieldNat (payload : Option Nat) (old : Option Nat) : Option Nat :=
  match payload with
  | some v => some v
  | none => old

/-- One iteration of the import loop (api/hosts.py lines 226-254): skip a
device without a truthy MAC, find or create the row, apply the eight
guarded field updates, then the unconditional `is_up`, `open_port_count`
and (when truthy) `last_seen` writes. -/
def importDevice (hosts : List HostRow) (dev : DeviceDict) : List HostRow :=
  match dev.mac_address with
  | none => hosts
  | some mac =>
      if mac = "" then hosts
      else
        let host0 := (findHost hosts mac).getD (HostRow.new mac)
        let host := { host0 with
          ip_address := (dev.ip_address).getD host0.ip_address
          hostname := importField dev.hostname host0.hostname
          vendor := importField dev.vendor host0.vendor
          os_name := importField dev.os_name host0.os_name
          os_family := importField dev.os_family host0.os_family
          os_accuracy := importFieldNat dev.os_accuracy host0.os_accuracy
          os_cpe := importField dev.os_cpe host0.os_cpe
          firmware_url := importField dev.firmware_url host0.firmware_url
          is_up := (dev.is_up).getD true
          open_port_count := (dev.open_port_count).getD 0
          last_seen := (dev.last_seen).getD host0.last_seen }
        setHost hosts host

/-- The endpoint `import_devices` (api/hosts.py lines 216-257): fold the
per-device step over the devices list.  Note that it writes no port
rows. -/
def import_devices (hosts : List HostRow) (devs : List DeviceDict) :
    List HostRow :=
  devs.foldl importDevice hosts

/-! ## Theorems -/

/-- C1: the scheduler substrate defines no firmware-kind operations: each
of the four method names the firmware API and firmware pipeline invoke on
the shared `scheduler` instance (`enqueue_firmware`, `cancel_firmware`,
`is_cancelled_firmware`, `clear_cancel_firmware`) is absent from
`ScanScheduler`, so attribute resolution raises `AttributeError` and the
call fails instead of returning normally. -/
theorem c1_firmware_scheduler_ops_missing :
    attrLookup scanSchedulerMethods "enqueue_firmware" =
      Except.error "AttributeError: enqueue_firmware"
    ∧ attrLookup scanSchedulerMethods "cancel_firmware" =
      Except.error "AttributeError: cancel_firmware"
    ∧ attrLookup scanSchedulerMethods "is_cancelled_firmware" =
      Except.error "AttributeError: is_cancelled_firmware"
    ∧ attrLookup scanSchedulerMethods "clear_cancel_firmware" =
      Except.error "AttributeError: clear_cancel_firmware"
    ∧ firmwareSchedulerCalls.all
        (fun m => !(scanSchedulerMethods.contains m)) = true :=
  ⟨rfl, rfl, rfl, rfl, by decide⟩

/-- C4 counterexample: with one existing analysis in the non-terminal
status `emba_done`, the enqueue guard does not reject, and after the
enqueue two non-terminal firmware-analysis jobs exist for the host —
refuting the claim that any of the seven non-terminal statuses blocks the
enqueue. -/
theorem c4_counterexample :
    enqueueRejected [FirmwareStatus.emba_done] = false
    ∧ (startFirmwareAnalysis [FirmwareStatus.emba_done]).countP
        (fun s => specNonTerminal.contains s) = 2 := by
  decide

/-- C4 amended: the enqueue guard rejects exactly when some existing
analysis for the host is in one of the five statuses `pending`,
`downloading`, `downloaded`, `emba_running`, `triaging`; equivalently a
new job is created exactly when every existing analysis is `completed`,
`failed`, `cancelled`, `emba_queued` or `emba_done` — the last two are
non-terminal, so the at-most-one-non-terminal-job-per-host invariant is
not enforced. -/
theorem c4_guard_amended (existing : List FirmwareStatus) :
    (enqueueRejected existing = true ↔
      ∃ s ∈ existing, s ∈ guardStatuses)
    ∧ (startFirmwareAnalysis existing = existing ++ [FirmwareStatus.pending] ↔
      ∀ s ∈ existing,
        s = FirmwareStatus.completed ∨ s = FirmwareStatus.failed ∨
        s = FirmwareStatus.cancelled ∨ s = FirmwareStatus.emba_queued ∨
        s = FirmwareStatus.emba_done) := by
  constructor
  · simp only [enqueueRejected, List.any_eq_true]
    constructor
    · rintro ⟨s, hs, hmem⟩
      exact ⟨s, hs, by simpa using hmem⟩
    · rintro ⟨s, hs, hmem⟩
      exact ⟨s, hs, by simpa using hmem⟩
  · unfold startFirmwareAnalysis
    by_cases hrej : enqueueRejected existing = true
    · simp only [hrej, if_true]
      constructor
      · intro habs
        have : existing.length = existing.length + 1 := by
          calc existing.length
              = (existing ++ [FirmwareStatus.pending]).length := by rw [← habs]
            _ = existing.length + 1 := by simp
        omega
      · intro hall
        obtain ⟨s, hs, hmem⟩ := (List.any_eq_true.mp hrej)
        rcases hall s hs with h | h | h | h | h <;>
          (subst h; simp [guardStatuses] at hmem)
    · rw [if_neg hrej]
      refine iff_of_true rfl ?_
      intro s hs
      by_contra hcon
      push_neg at hcon
      obtain ⟨h1, h2, h3, h4, h5⟩ := hcon
      refine hrej (List.any_eq_true.mpr ⟨s, hs, ?_⟩)
      cases s <;> simp_all [guardStatuses]

/-- C7: target-size estimation and ping-sweep scaling: the estimated host
count is `max (numAddresses - 2) 1` for a parsed network, 256 for an
unparsed token containing a dash and 1 otherwise; with the default base of
120 s the timeout is 120 s for at most one host, 180 s up to 254, 300 s up
to 510, 600 s up to 2046 and 900 s above; the `--min-rate` value is 100
for at most 64 hosts and 300 above.  The boundary counts 1, 2, 255, 511,
2047, 2048 fall in the successive bands, giving 120, 180, 300, 600, 900,
900 seconds. -/
theorem c7_target_size_scaling :
    (∀ n : Nat, estimateHostCount (TargetSpec.cidr n) = max (n - 2) 1)
    ∧ (∀ t : String, t.data.contains '-' = true →
        estimateHostCount (TargetSpec.plain t) = 256)
    ∧ (∀ t : String, t.data.contains '-' = false →
        estimateHostCount (TargetSpec.plain t) = 1)
    ∧ (∀ t : TargetSpec, estimateHostCount t ≤ 1 →
        pingSweepTimeout t 120 = 120)
    ∧ (∀ t : TargetSpec, 1 < estimateHostCount t → estimateHostCount t ≤ 254 →
        pingSweepTimeout t 120 = 180)
    ∧ (∀ t : TargetSpec, 254 < estimateHostCount t → estimateHostCount t ≤ 510 →
        pingSweepTimeout t 120 = 300)
    ∧ (∀ t : TargetSpec, 510 < estimateHostCount t → estimateHostCount t ≤ 2046 →
        pingSweepTimeout t 120 = 600)
    ∧ (∀ t : TargetSpec, 2046 < estimateHostCount t →
        pingSweepTimeout t 120 = 900)
    ∧ (∀ n : Nat, n ≤ 64 → minRateFlag n = "100")
    ∧ (∀ n : Nat, 64 < n → minRateFlag n = "300") := by
  refine ⟨fun n => rfl, ?_, ?_, ?_, ?_, ?_, ?_, ?_, ?_, ?_⟩
  · intro t h
    simp only [estimateHostCount]
    rw [if_pos h]
  · intro t h
    simp only [estimateHostCount]
    rw [if_neg (by rw [h]; simp)]
  · intro t h
    unfold pingSweepTimeout
    dsimp only
    simp only [if_pos h]
  · intro t h1 h2
    unfold pingSweepTimeout
    dsimp only
    split_ifs <;> omega
  · intro t h1 h2
    unfold pingSweepTimeout
    dsimp only
    split_ifs <;> omega
  · intro t h1 h2
    unfold pingSweepTimeout
    dsimp only
    split_ifs <;> omega
  · intro t h1
    unfold pingSweepTimeout
    dsimp only
    split_ifs <;> omega
  · intro n h
    unfold minRateFlag
    rw [if_neg (by omega)]
  · intro n h
    unfold minRateFlag
    rw [if_pos h]

/-- C7 witness: at the boundary host counts 1, 2, 255, 511, 2047, 2048
(attained by concrete targets, including a dashless token and parsed
networks of 4, 257, 513, 2049 and 2050 addresses) the theorem yields the
table 120, 180, 300, 600, 900, 900, and the min-rate bounds at 64 and 65
hosts. -/
theorem c7_target_size_scaling_witness :
    pingSweepTimeout (TargetSpec.plain "10.0.0.5") 120 = 120
    ∧ pingSweepTimeout (TargetSpec.cidr 4) 120 = 180
    ∧ pingSweepTimeout (TargetSpec.cidr 257) 120 = 300
    ∧ pingSweepTimeout (TargetSpec.cidr 513) 120 = 600
    ∧ pingSweepTimeout (TargetSpec.cidr 2049) 120 = 900
    ∧ pingSweepTimeout (TargetSpec.cidr 2050) 120 = 900
    ∧ minRateFlag 64 = "100"
    ∧ minRateFlag 65 = "300" :=
  ⟨c7_target_size_scaling.2.2.2.1 (TargetSpec.plain "10.0.0.5") (by decide),
   c7_target_size_scaling.2.2.2.2.1 (TargetSpec.cidr 4) (by decide) (by decide),
   c7_target_size_scaling.2.2.2.2.2.1 (TargetSpec.cidr 257) (by decide) (by decide),
   c7_target_size_scaling.2.2.2.2.2.2.1 (TargetSpec.cidr 513) (by decide) (by decide),
   c7_target_size_scaling.2.2.2.2.2.2.2.1 (TargetSpec.cidr 2049) (by decide),
   c7_target_size_scaling.2.2.2.2.2.2.2.1 (TargetSpec.cidr 2050) (by decide),
   c7_target_size_scaling.2.2.2.2.2.2.2.2.1 64 (by decide),
   c7_target_size_scaling.2.2.2.2.2.2.2.2.2 65 (by decide)⟩

/-- Discovered host with ip 10.0.1.1 and no observed MAC, used for the
surrogate-identifier collision. -/
def c9hostA : DiscoveredHost :=
  { ip := "10.0.1.1", mac := none, vendor := none, hostname := none,
    is_up := true, response_time_ms := none, open_ports := [],
    os_name := none, os_family := none, os_accuracy := none, os_cpe := none,
    services := [], nmap_xml := none }

/-- Discovered host with ip 10.0.1.12 and no observed MAC; its surrogate
collides with that of 10.0.1.1. -/
def c9hostB : DiscoveredHost :=
  { ip := "10.0.1.12", mac := none, vendor := none, hostname := none,
    is_up := true, response_time_ms := none, open_ports := [],
    os_name := none, os_family := none, os_accuracy := none, os_cpe := none,
    services := [], nmap_xml := none }

/-- C9: the surrogate link-layer identifier is not injective: the distinct
addresses 10.0.1.1 and 10.0.1.12 share the surrogate `00:00:10:0:1:1`, and
persisting both (MAC-less) hosts into an empty inventory produces a single
host row, whose ip is the later one — the second upsert overwrote the
first. -/
theorem c9_surrogate_not_injective :
    surrogateMac "10.0.1.1" = surrogateMac "10.0.1.12"
    ∧ ("10.0.1.1" : String) ≠ "10.0.1.12"
    ∧ (persistResults 1 0 ⟨[], []⟩ [c9hostA, c9hostB]).hosts.length = 1
    ∧ (persistResults 1 0 ⟨[], []⟩ [c9hostA, c9hostB]).hosts.map
        (fun r => r.ip_address) = ["10.0.1.12"] := by
  refine ⟨by decide, by decide, by decide, by decide⟩

/-- Scan row of a job that is mid-flight (status running, stage 3) when a
cancellation is requested. -/
def c3scan : ScanRow :=
  { target := "192.168.1.0/24", status := ScanStatus.running,
    current_stage := 3, stage_label := some "Port Scanning",
    hosts_discovered := 0, live_hosts := 0, open_ports_found := 0,
    started_at := some 5, completed_at := none, error_message := none }

/-- C3 counterexample: when the cancel flag is observed at a progress-hook
invocation the worker persists `Cancelled`, appends the warning log and
clears the flag — but publishes nothing at all on the progress channel,
refuting the claimed terminal cancellation event. -/
theorem c3_counterexample :
    (processScan (some c3scan) ⟨[], []⟩ 1 9 true (ToolRun.ok [])).published = []
    ∧ (processScan (some c3scan) ⟨[], []⟩ 1 9 true
        (ToolRun.ok [])).scanRow.map ScanRow.status =
        some ScanStatus.cancelled := by
  decide

/-- C3 amended: whenever a scan job that is not already `Cancelled` has its
cancel flag observed at a progress-hook invocation, the pipeline unwinds
and the worker persists status `Cancelled` with `completed_at` set, appends
exactly one warning-level scan-log entry, removes the job id from the
cancel set — and publishes no event on the progress channel (the
cancellation handler emits no terminal event; lines 216-226 of
worker/main.py publish nothing). -/
theorem c3_cancel_observed_effects (scan : ScanRow) (db : DB)
    (scanId now : Nat) (tools : ToolRun)
    (h : scan.status ≠ ScanStatus.cancelled) :
    processScan (some scan) db scanId now true tools =
      { scanRow := some { scan with
          status := ScanStatus.cancelled
          started_at := some now
          current_stage := 0
          completed_at := some now }
        db := db
        logs := [{ stage := 1, level := "warning",
                   message := "Scan cancelled by user" }]
        published := []
        cancelCleared := true
        pipelineRan := true } := by
  simp [processScan, onProgressRaisesCancel, h]

/-- C3 witness: the amended theorem applied to the concrete mid-flight scan
row. -/
theorem c3_cancel_observed_effects_witness :
    processScan (some c3scan) ⟨[], []⟩ 1 9 true (ToolRun.ok []) =
      { scanRow := some { c3scan with
          status := ScanStatus.cancelled
          started_at := some 9
          current_stage := 0
          completed_at := some 9 }
        db := ⟨[], []⟩
        logs := [{ stage := 1, level := "warning",
                   message := "Scan cancelled by user" }]
        published := []
        cancelCleared := true
        pipelineRan := true } :=
  c3_cancel_observed_effects c3scan ⟨[], []⟩ 1 9 (ToolRun.ok []) (by decide)

/-- C10: a job whose row is already `Cancelled` at dequeue makes the worker
return before the pipeline: nothing is persisted, logged or published, the
cancel set is not touched, so a prior cancel-set entry survives the
terminal job (first conjunct); and across every run of `_process_scan` the
cancel-set entry is removed exactly on the in-flight cancellation path —
a loaded, not-yet-cancelled row with the flag set (second conjunct). -/
theorem c10_already_cancelled_frame :
    (∀ (scan : ScanRow) (db : DB) (scanId now : Nat) (flag : Bool)
        (tools : ToolRun), scan.status = ScanStatus.cancelled →
      processScan (some scan) db scanId now flag tools =
        { scanRow := some scan, db := db, logs := [], published := []
          cancelCleared := false, pipelineRan := false }
      ∧ cancelSetAfter true
          (processScan (some scan) db scanId now flag tools) = true)
    ∧ (∀ (scan0 : Option ScanRow) (db : DB) (scanId now : Nat) (flag : Bool)
        (tools : ToolRun),
      (processScan scan0 db scanId now flag tools).cancelCleared = true ↔
        (∃ scan, scan0 = some scan ∧
          scan.status ≠ ScanStatus.cancelled ∧ flag = true)) := by
  constructor
  · intro scan db scanId now flag tools h
    constructor
    · simp [processScan, h]
    · simp [processScan, h, cancelSetAfter]
  · intro scan0 db scanId now flag tools
    match scan0 with
    | none => simp [processScan]
    | some scan =>
        by_cases h : scan.status = ScanStatus.cancelled
        · simp [processScan, h]
        · cases flag with
          | false =>
              cases tools with
              | ok hosts => simp [processScan, h, onProgressRaisesCancel]
              | raisesError msg => simp [processScan, h, onProgressRaisesCancel]
          | true =>
              simp [processScan, h, onProgressRaisesCancel]

/-- Scan row already cancelled (by the cancel endpoint) before the worker
dequeues it. -/
def c10scan : ScanRow :=
  { target := "10.0.0.0/24", status := ScanStatus.cancelled,
    current_stage := 0, stage_label := none,
    hosts_discovered := 0, live_hosts := 0, open_ports_found := 0,
    started_at := none, completed_at := none, error_message := none }

/-- C10 witness: the theorem applied to a concrete already-cancelled row:
the run has no effects and the cancel-set entry (present before) is still
present after. -/
theorem c10_already_cancelled_frame_witness :
    processScan (some c10scan) ⟨[], []⟩ 2 7 true (ToolRun.ok []) =
      { scanRow := some c10scan, db := ⟨[], []⟩, logs := [], published := []
        cancelCleared := false, pipelineRan := false }
    ∧ cancelSetAfter true
        (processScan (some c10scan) ⟨[], []⟩ 2 7 true (ToolRun.ok [])) = true :=
  c10_already_cancelled_frame.1 c10scan ⟨[], []⟩ 2 7 true (ToolRun.ok []) rfl

/-- Discovered host carrying deep-scan service data in which port 80 was
reported in state `closed` on the re-scan while stage 3 had seen two open
ports. -/
def c2host : DiscoveredHost :=
  { ip := "192.168.1.10", mac := some "AA:BB:CC:DD:EE:01", vendor := none,
    hostname := none, is_up := true, response_time_ms := none,
    open_ports := [22, 80], os_name := none, os_family := none,
    os_accuracy := none, os_cpe := none,
    services :=
      [(22, { port := 22, protocol := "tcp", state := "open",
              name := some "ssh", product := none, version := none,
              extra_info := none, cpe := none, scripts := none }),
       (80, { port := 80, protocol := "tcp", state := "closed",
              name := none, product := none, version := none,
              extra_info := none, cpe := none, scripts := none })],
    nmap_xml := none }

/-- C2 counterexample: persisting `c2host` into an empty inventory leaves
the host row with `open_port_count = 2` (the stage-3 open-port list
length) while only one persisted port row is in state `open` — the cached
count does not equal the number of open-state port rows. -/
theorem c2_counterexample :
    ((persistResults 1 0 ⟨[], []⟩ [c2host]).hosts.find?
      (fun r => r.mac_address = "AA:BB:CC:DD:EE:01")).map
        HostRow.open_port_count = some 2
    ∧ countOpenPorts (persistResults 1 0 ⟨[], []⟩ [c2host])
        "AA:BB:CC:DD:EE:01" = 1 := by
  decide

/-- The open-port-count cache invariant of the spec: every host row counts
exactly its open-state port rows. -/
def DBInv (db : DB) : Prop :=
  ∀ r ∈ db.hosts, r.open_port_count = countOpenPorts db r.mac_address

/-- Membership in an upserted host list: a member is the written row or an
untouched row with a different key. -/
theorem mem_setHost {hosts : List HostRow} {h r : HostRow}
    (hr : r ∈ setHost hosts h) :
    r = h ∨ (r ∈ hosts ∧ r.mac_address ≠ h.mac_address) := by
  unfold setHost at hr
  by_cases hex : hosts.any (fun x => x.mac_address = h.mac_address) = true
  · rw [if_pos hex] at hr
    obtain ⟨x, hx, hxr⟩ := List.mem_map.mp hr
    by_cases hxm : x.mac_address = h.mac_address
    · rw [if_pos hxm] at hxr
      exact Or.inl hxr.symm
    · rw [if_neg hxm] at hxr
      exact Or.inr ⟨hxr ▸ hx, hxr ▸ hxm⟩
  · rw [if_neg hex] at hr
    rcases List.mem_append.mp hr with h1 | h2
    · refine Or.inr ⟨h1, fun heq => hex ?_⟩
      exact List.any_eq_true.mpr ⟨r, h1, by simp [heq]⟩
    · exact Or.inl (by simpa using h2)

/-- Every port row written for a host carries that host's key. -/
theorem portsForHost_host_id {mac : String} {dh : DiscoveredHost} :
    ∀ p ∈ portsForHost mac dh, p.host_id = mac := by
  intro p hp
  unfold portsForHost at hp
  rcases List.mem_append.mp hp with h1 | h2
  · obtain ⟨a, _, ha⟩ := List.mem_map.mp h1
    exact ha ▸ rfl
  · by_cases hc : dh.services.isEmpty && !dh.open_ports.isEmpty
    · rw [if_pos hc] at h2
      obtain ⟨a, _, ha⟩ := List.mem_map.mp h2
      exact ha ▸ rfl
    · rw [if_neg hc] at h2
      exact absurd h2 (List.not_mem_nil p)

/-- With no deep-scan service data the rows written for a host are exactly
one open-state row per stage-3 open port. -/
theorem portsForHost_noServices {mac : String} {dh : DiscoveredHost}
    (h : dh.services = []) :
    portsForHost mac dh = dh.open_ports.map (fun pn =>
      { host_id := mac, port_number := pn, protocol := "tcp",
        state := "open", service_name := none, service_version := none,
        service_product := none, service_extra_info := none,
        service_cpe := none, scripts_output := none }) := by
  unfold portsForHost
  rw [h]
  cases hop : dh.open_ports with
  | nil => simp
  | cons a l => simp

/-- Filtering the open rows of a key `m` commutes with removing the rows
of a different key `mac`. -/
theorem filter_open_of_ne {ports : List PortRow} {mac m : String}
    (hm : m ≠ mac) :
    ((ports.filter (fun p => p.host_id ≠ mac)).filter
      (fun p => p.host_id = m ∧ p.state = "open")) =
    ports.filter (fun p => p.host_id = m ∧ p.state = "open") := by
  induction ports with
  | nil => rfl
  | cons a l ih =>
      by_cases h1 : a.host_id = m ∧ a.state = "open"
      · have hne : a.host_id ≠ mac := h1.1 ▸ hm
        simp only [List.filter_cons]
        rw [if_pos (by simpa using hne)]
        simp only [List.filter_cons]
        rw [if_pos (by simpa using h1), if_pos (by simpa using h1), ih]
      · simp only [List.filter_cons]
        by_cases h2 : a.host_id ≠ mac
        · rw [if_pos (by simpa using h2)]
          simp only [List.filter_cons]
          rw [if_neg (by simpa using h1), if_neg (by simpa using h1), ih]
        · rw [if_neg (by simpa using h2)]
          rw [if_neg (by simpa using h1), ih]

/-- The rows surviving the delete for key `mac` contain no open rows of
`mac`. -/
theorem filter_open_self_nil {ports : List PortRow} {mac : String} :
    ((ports.filter (fun p => p.host_id ≠ mac)).filter
      (fun p => p.host_id = mac ∧ p.state = "open")) = [] := by
  rw [List.filter_eq_nil_iff]
  intro p hp
  have hne := List.of_mem_filter hp
  simp only [decide_eq_true_eq] at hne
  simp only [decide_eq_true_eq]
  intro hcon
  exact hne hcon.1

/-- A row list all of whose keys are `mac` contributes no open rows of a
different key. -/
theorem filter_open_other_nil {rows : List PortRow} {mac m : String}
    (hall : ∀ p ∈ rows, p.host_id = mac) (hm : m ≠ mac) :
    rows.filter (fun p => p.host_id = m ∧ p.state = "open") = [] := by
  rw [List.filter_eq_nil_iff]
  intro p hp
  simp only [decide_eq_true_eq]
  intro hcon
  exact hm (hcon.1 ▸ hall p hp)

/-- The key of the row written by `persistOne` is the surrogate-or-observed
MAC of the discovered host. -/
theorem updateHost_mac (db : DB) (scanId now : Nat) (dh : DiscoveredHost) :
    (updateHostFromScan
      ((findHost db.hosts (pyOrStr dh.mac (surrogateMac dh.ip))).getD
        (HostRow.new (pyOrStr dh.mac (surrogateMac dh.ip)))) scanId now
        dh).mac_address = pyOrStr dh.mac (surrogateMac dh.ip) := by
  set mac := pyOrStr dh.mac (surrogateMac dh.ip) with hmac
  have : (updateHostFromScan
      ((findHost db.hosts mac).getD (HostRow.new mac)) scanId now
        dh).mac_address =
      ((findHost db.hosts mac).getD (HostRow.new mac)).mac_address := rfl
  rw [this]
  cases hfind : findHost db.hosts mac with
  | none => rfl
  | some r0 =>
      have := List.find?_some hfind
      simpa using this

/-- One `persistOne` step preserves the open-port-count invariant when the
discovered host carries no deep-scan service map (every row it writes is
in state `open`). -/
theorem persistOne_inv (scanId now : Nat) (db : DB) (dh : DiscoveredHost)
    (hInv : DBInv db) (hsvc : dh.services = []) :
    DBInv (persistOne scanId now db dh) := by
  intro r hr
  have hports : (persistOne scanId now db dh).ports =
      db.ports.filter (fun p => p.host_id ≠ pyOrStr dh.mac (surrogateMac dh.ip))
        ++ portsForHost (pyOrStr dh.mac (surrogateMac dh.ip)) dh := rfl
  have hhosts : (persistOne scanId now db dh).hosts =
      setHost db.hosts (updateHostFromScan
        ((findHost db.hosts (pyOrStr dh.mac (surrogateMac dh.ip))).getD
          (HostRow.new (pyOrStr dh.mac (surrogateMac dh.ip)))) scanId now dh) := rfl
  rcases mem_setHost (hhosts ▸ hr) with hcase | ⟨hmem, hne⟩
  · subst hcase
    have hopc : (updateHostFromScan
        ((findHost db.hosts (pyOrStr dh.mac (surrogateMac dh.ip))).getD
          (HostRow.new (pyOrStr dh.mac (surrogateMac dh.ip)))) scanId now
          dh).open_port_count = dh.open_ports.length := rfl
    rw [hopc]
    unfold countOpenPorts
    rw [hports, updateHost_mac db scanId now dh, List.filter_append,
      List.length_append, filter_open_self_nil,
      portsForHost_noServices hsvc]
    have : (dh.open_ports.map (fun pn =>
        ({ host_id := pyOrStr dh.mac (surrogateMac dh.ip), port_number := pn,
           protocol := "tcp", state := "open", service_name := none,
           service_version := none, service_product := none,
           service_extra_info := none, service_cpe := none,
           scripts_output := none } : PortRow))).filter
        (fun p => p.host_id = pyOrStr dh.mac (surrogateMac dh.ip) ∧
          p.state = "open") =
        dh.open_ports.map (fun pn =>
        ({ host_id := pyOrStr dh.mac (surrogateMac dh.ip), port_number := pn,
           protocol := "tcp", state := "open", service_name := none,
           service_version := none, service_product := none,
           service_extra_info := none, service_cpe := none,
           scripts_output := none } : PortRow)) := by
      rw [List.filter_eq_self]
      intro p hp
      obtain ⟨pn, _, hpn⟩ := List.mem_map.mp hp
      subst hpn
      simp
    rw [this, List.length_nil, List.length_map]
    omega
  · have hiv := hInv r hmem
    have hrm : r.mac_address ≠ pyOrStr dh.mac (surrogateMac dh.ip) := by
      intro hcon
      exact hne (by rw [hcon, updateHost_mac db scanId now dh])
    unfold countOpenPorts at hiv ⊢
    rw [hports, List.filter_append, List.length_append,
      filter_open_of_ne hrm,
      filter_open_other_nil (portsForHost_host_id) hrm,
      List.length_nil]
    simpa using hiv

/-- C2 amended: the invariant `open_port_count = number of open-state port
rows` is maintained by the worker upsert across a whole scan exactly for
hosts persisted without deep-scan service data (every port row is then
written with state `open`); a host whose deep-scan service map reports a
non-open state breaks it (see the counterexample), and the JSON import
writes `open_port_count` from the payload without writing any port
rows. -/
theorem c2_open_port_count_amended (scanId now : Nat) (db : DB)
    (hs : List DiscoveredHost) (hInv : DBInv db)
    (hsvc : ∀ dh ∈ hs, dh.services = []) :
    DBInv (persistResults scanId now db hs) := by
  induction hs generalizing db with
  | nil => exact hInv
  | cons dh rest ih =>
      exact ih (persistOne scanId now db dh)
        (persistOne_inv scanId now db dh hInv (hsvc dh (List.mem_cons_self dh rest)))
        (fun d hd => hsvc d (List.mem_cons_of_mem dh hd))

/-- C2 witness: the amended theorem applied to an empty inventory and a
single service-free host with two open ports: the resulting row satisfies
the invariant, with both sides equal to 2. -/
theorem c2_open_port_count_amended_witness :
    DBInv (persistResults 1 0 ⟨[], []⟩
      [{ c2host with services := [] }])
    ∧ ((persistResults 1 0 ⟨[], []⟩
        [{ c2host with services := [] }]).hosts.map
          HostRow.open_port_count) = [2]
    ∧ countOpenPorts (persistResults 1 0 ⟨[], []⟩
        [{ c2host with services := [] }]) "AA:BB:CC:DD:EE:01" = 2 :=
  ⟨c2_open_port_count_amended 1 0 ⟨[], []⟩ [{ c2host with services := [] }]
    (fun r hr => absurd hr (List.not_mem_nil r))
    (fun dh hd => by
      rcases List.mem_singleton.mp hd with h
      rw [h]),
   by decide, by decide⟩

/-- Host with one open port whose MAC maps to the matching prior count 1,
so stage 4 skips it. -/
def c5hostSkip : DiscoveredHost :=
  { ip := "10.0.0.1", mac := some "AA:AA:AA:AA:AA:01", vendor := none,
    hostname := none, is_up := true, response_time_ms := none,
    open_ports := [22], os_name := none, os_family := none,
    os_accuracy := none, os_cpe := none, services := [], nmap_xml := none }

/-- Host sharing the ip 10.0.0.1 but carrying a different MAC absent from
the prior-count map, so stage 4 deep-scans it. -/
def c5hostScan : DiscoveredHost :=
  { ip := "10.0.0.1", mac := some "BB:BB:BB:BB:BB:02", vendor := none,
    hostname := none, is_up := true, response_time_ms := none,
    open_ports := [22], os_name := none, os_family := none,
    os_accuracy := none, os_cpe := none, services := [], nmap_xml := none }

/-- Host with a distinct ip 10.0.0.2 and a MAC absent from the map. -/
def c5hostOther : DiscoveredHost :=
  { ip := "10.0.0.2", mac := some "CC:CC:CC:CC:CC:03", vendor := none,
    hostname := none, is_up := true, response_time_ms := none,
    open_ports := [80], os_name := none, os_family := none,
    os_accuracy := none, os_cpe := none, services := [], nmap_xml := none }

/-- Prior port-count snapshot mapping the skipped host's MAC to its
current open-port count. -/
def c5map : List (String × Nat) := [("AA:AA:AA:AA:AA:01", 1)]

/-- C5 counterexample: with two hosts sharing the ip 10.0.0.1 — one
skipped by the prior-count rule, one deep-scanned — the by-ip re-merge
replaces the skipped host at position 0 with the deep-scan result of the
other host, so a host that is not deep-scanned is NOT passed through to
the output unchanged.  The identity adapter realizes `_deep_scan_single`
on its tool-failure path (scanner.py lines 465-467, the host is returned
unmodified). -/
theorem c5_counterexample :
    stage4Targets [c5hostSkip, c5hostScan] (some c5map) = [c5hostScan]
    ∧ specDeepScanned (some c5map) c5hostSkip = false
    ∧ (stage4_deep_scan id [c5hostSkip, c5hostScan] (some c5map)).get? 0 =
        some c5hostScan
    ∧ c5hostScan ≠ c5hostSkip := by
  decide

/-- C5 amended: stage 4 deep-scans exactly the hosts with a non-empty
open-port list whose key (observed MAC or surrogate) does not map to a
prior count equal to that list's length and strictly positive (first
conjunct: the code's target selection equals the claim's filter); and a
host that is not selected is passed through to the output unchanged at its
position, provided no deep-scanned host shares its ip — the re-merge is
keyed by ip, so duplicate ips can replace a passed-through host (second
conjunct; the counterexample shows the proviso is necessary). -/
theorem c5_stage4_filter (hosts : List DiscoveredHost)
    (existing : Option (List (String × Nat))) :
    (stage4Targets hosts existing = hosts.filter (specDeepScanned existing))
    ∧ (∀ (ds : DiscoveredHost → DiscoveredHost),
        (∀ x, (ds x).ip = x.ip) →
        ∀ (i : Nat) (h : DiscoveredHost),
        hosts.get? i = some h →
        specDeepScanned existing h = false →
        (∀ t ∈ stage4Targets hosts existing, t.ip ≠ h.ip) →
        (stage4_deep_scan ds hosts existing).get? i = some h) := by
  constructor
  · unfold stage4Targets
    match existing with
    | none =>
        apply List.filter_congr
        intro x _
        simp [specDeepScanned]
    | some m =>
        dsimp only
        by_cases hm : m.isEmpty
        · rw [if_pos hm]
          have hm0 : m = [] := List.isEmpty_iff.mp hm
          subst hm0
          apply List.filter_congr
          intro x _
          simp [specDeepScanned]
        · rw [if_neg hm, List.filter_filter]
          apply List.filter_congr
          intro x _
          have : stage4Skip m x =
              ((m.find? (fun p => p.1 = macKey x)).any
                (fun p => p.2 = x.open_ports.length && p.2 > 0)) := by
            unfold stage4Skip existingCount
            cases hfind : m.find? (fun p => p.1 = macKey x) with
            | none =>
                simp only [Option.any_none]
                have : ¬((-1 : Int) = (x.open_ports.length : Int)) := by
                  omega
                simp [this]
            | some p =>
                simp only [Option.any_some]
                by_cases h1 : (p.2 : Int) = (x.open_ports.length : Int)
                · have h1n : p.2 = x.open_ports.length := by exact_mod_cast h1
                  by_cases h2 : (0 : Int) < (p.2 : Int)
                  · have h2n : 0 < p.2 := by exact_mod_cast h2
                    simp [h1, h1n, h2, h2n]
                  · have h2n : ¬(0 < p.2) := by
                      intro hc
                      exact h2 (by exact_mod_cast hc)
                    simp [h1, h1n, h2, h2n]
                · have h1n : ¬(p.2 = x.open_ports.length) := by
                    intro hc
                    exact h1 (by exact_mod_cast hc)
                  simp [h1, h1n]
          unfold specDeepScanned
          rw [this]
          rw [Bool.and_comm]
  · intro ds hip i h hget hspec hne
    unfold stage4_deep_scan
    dsimp only
    by_cases ht : (stage4Targets hosts existing).isEmpty
    · rw [if_pos ht]
      exact hget
    · rw [if_neg ht]
      have hfilter : ((stage4Targets hosts existing).map ds).filter
          (fun r => r.ip = h.ip) = [] := by
        rw [List.filter_eq_nil_iff]
        intro r hrmem
        obtain ⟨t, htmem, hts⟩ := List.mem_map.mp hrmem
        simp only [decide_eq_true_eq]
        rw [← hts, hip t]
        exact hne t htmem
      have hmerge : (lastResultFor ((stage4Targets hosts existing).map ds)
          h.ip).getD h = h := by
        unfold lastResultFor
        rw [hfilter]
        rfl
      rw [List.get?_map, hget]
      exact congrArg some hmerge

/-- C5 witness: the theorem applied to a concrete pair of distinct-ip
hosts: the skipped host is passed through unchanged at position 0 while
the other is the sole deep-scan target. -/
theorem c5_stage4_filter_witness :
    stage4Targets [c5hostSkip, c5hostOther] (some c5map) =
      [c5hostSkip, c5hostOther].filter (specDeepScanned (some c5map))
    ∧ (stage4_deep_scan id [c5hostSkip, c5hostOther] (some c5map)).get? 0 =
      some c5hostSkip :=
  ⟨(c5_stage4_filter [c5hostSkip, c5hostOther] (some c5map)).1,
   (c5_stage4_filter [c5hostSkip, c5hostOther] (some c5map)).2 id
     (fun x => rfl) 0 c5hostSkip (by decide) (by decide) (by decide)⟩

/-- Guarded import of a field from its own exported value is the
identity. -/
theorem importField_self (a : Option String) : importField a a = a := by
  cases a <;> rfl

/-- Nat-valued variant of `importField_self`. -/
theorem importFieldNat_self (a : Option Nat) : importFieldNat a a = a := by
  cases a <;> rfl

/-- With unique keys, the first row found under a member's key is that
member itself. -/
theorem findHost_self {hosts : List HostRow} {h : HostRow}
    (hnd : (hosts.map HostRow.mac_address).Nodup) (hmem : h ∈ hosts) :
    findHost hosts h.mac_address = some h := by
  induction hosts with
  | nil => exact absurd hmem (List.not_mem_nil h)
  | cons b rest ih =>
      unfold findHost
      rw [List.find?_cons]
      by_cases hb : b.mac_address = h.mac_address
      · rcases List.mem_cons.mp hmem with heq | htl
        · simp [heq]
        · exfalso
          have hmm : h.mac_address ∈ rest.map HostRow.mac_address :=
            List.mem_map.mpr ⟨h, htl, rfl⟩
          rw [← hb] at hmm
          exact (List.nodup_cons.mp (by simpa using hnd)).1 hmm
      · rcases List.mem_cons.mp hmem with heq | htl
        · exact absurd (by rw [heq]) hb
        · have hrec := ih (List.nodup_cons.mp (by simpa using hnd)).2 htl
          unfold findHost at hrec
          simp only [decide_eq_false hb]
          exact hrec

/-- Re-importing a member's own exported dict leaves the host list
unchanged. -/
theorem importDevice_self {hosts : List HostRow} {h : HostRow}
    (hnd : (hosts.map HostRow.mac_address).Nodup) (hmem : h ∈ hosts) :
    importDevice hosts (hostToDict h) = hosts := by
  unfold importDevice hostToDict
  dsimp only
  by_cases hz : h.mac_address = ""
  · rw [if_pos hz]
  · rw [if_neg hz]
    rw [findHost_self hnd hmem]
    have hhost : ({ (some h : Option HostRow).getD (HostRow.new h.mac_address) with
        ip_address := (some h.ip_address).getD
          ((some h).getD (HostRow.new h.mac_address)).ip_address
        hostname := importField h.hostname
          ((some h).getD (HostRow.new h.mac_address)).hostname
        vendor := importField h.vendor
          ((some h).getD (HostRow.new h.mac_address)).vendor
        os_name := importField h.os_name
          ((some h).getD (HostRow.new h.mac_address)).os_name
        os_family := importField h.os_family
          ((some h).getD (HostRow.new h.mac_address)).os_family
        os_accuracy := importFieldNat h.os_accuracy
          ((some h).getD (HostRow.new h.mac_address)).os_accuracy
        os_cpe := importField h.os_cpe
          ((some h).getD (HostRow.new h.mac_address)).os_cpe
        firmware_url := importField h.firmware_url
          ((some h).getD (HostRow.new h.mac_address)).firmware_url
        is_up := (some h.is_up).getD true
        open_port_count := (some h.open_port_count).getD 0
        last_seen := (some h.last_seen).getD
          ((some h).getD (HostRow.new h.mac_address)).last_seen } : HostRow) = h := by
      simp only [Option.getD_some]
      rw [importField_self, importField_self, importField_self,
        importField_self, importField_self, importField_self,
        importFieldNat_self]
    rw [hhost]
    unfold setHost
    rw [if_pos (List.any_eq_true.mpr ⟨h, hmem, by simp⟩)]
    have : ∀ r ∈ hosts,
        (if r.mac_address = h.mac_address then h else r) = r := by
      intro r hr
      by_cases hrm : r.mac_address = h.mac_address
      · rw [if_pos hrm]
        exact (List.inj_on_of_nodup_map hnd hmem hr hrm.symm).symm ▸ rfl
      · rw [if_neg hrm]
    calc hosts.map (fun r => if r.mac_address = h.mac_address then h else r)
        = hosts.map id := List.map_congr_left this
      _ = hosts := List.map_id hosts

/-- Folding the import over the exported dicts of members leaves the host
list unchanged. -/
theorem import_fold_members (hosts : List HostRow)
    (hnd : (hosts.map HostRow.mac_address).Nodup) :
    ∀ l : List HostRow, (∀ x ∈ l, x ∈ hosts) →
      import_devices hosts (l.map hostToDict) = hosts := by
  intro l
  induction l with
  | nil => intro _; rfl
  | cons a t ih =>
      intro hl
      unfold import_devices
      rw [List.map_cons, List.foldl_cons,
        importDevice_self hnd (hl a (List.mem_cons_self a t))]
      exact ih (fun x hx => hl x (List.mem_cons_of_mem a hx))

/-- C8: exporting all hosts and re-importing the exported `devices.json`
(upsert by MAC) leaves the host table exactly as it was — in particular
every row keeps identical values on the documented import field set, and
any field exported as `null` (the payload `None`) is preserved unchanged.
Uniqueness of the MAC keys is the table's primary-key invariant. -/
theorem c8_export_import_roundtrip (hosts : List HostRow)
    (hnd : (hosts.map HostRow.mac_address).Nodup) :
    import_devices hosts (export_devices hosts) = hosts :=
  import_fold_members hosts hnd hosts (fun _ hx => hx)

/-- Host row with several user-edited and several null fields, for the
round-trip witness. -/
def c8row1 : HostRow :=
  { mac_address := "AA:BB:CC:DD:EE:01", scan_id := some 3,
    ip_address := "192.168.1.10", hostname := some "router.lan",
    vendor := some "Cisco", os_name := some "IOS 15.x",
    os_family := some "IOS", os_accuracy := some 95,
    os_cpe := some "cpe:/o:cisco:ios", is_up := true,
    response_time_ms := some 4, nmap_raw_xml := none,
    firmware_url := some "http://fw.example/r1.bin", open_port_count := 2,
    last_seen := 77 }

/-- Second host row, with null optional fields. -/
def c8row2 : HostRow :=
  { mac_address := "00:00:10:0:1:1", scan_id := none,
    ip_address := "10.0.1.1", hostname := none, vendor := none,
    os_name := none, os_family := none, os_accuracy := none,
    os_cpe := none, is_up := false, response_time_ms := none,
    nmap_raw_xml := none, firmware_url := none, open_port_count := 0,
    last_seen := 12 }

/-- C8 witness: the round trip on a concrete two-row table is the
identity. -/
theorem c8_export_import_roundtrip_witness :
    import_devices [c8row1, c8row2] (export_devices [c8row1, c8row2]) =
      [c8row1, c8row2] :=
  c8_export_import_roundtrip [c8row1, c8row2] (by decide)

/-- C6 counterexample: in the report `"15/10 and 7/10"` the second pattern
also matches `7/10` (at offset 10) with the in-range value 7, yet the
parser returns `None`: it examined only the leftmost `15/10` match (value
15, out of range) and then fell through to pattern 3, which does not
match — refuting the claim that any in-range match of any pattern yields
a score. -/
theorem c6_counterexample :
    parse_risk_score "15/10 and 7/10" = none
    ∧ matchP2At ((lowerChars "15/10 and 7/10").drop 10) = some "7"
    ∧ scoreInRange (ratOfNum "7") = true := by
  decide

/-- A leftmost match of an anchored matcher: it fires at some offset and at
no earlier offset. -/
def leftmostMatch (m : List Char → Option String) (cs : List Char)
    (g : String) : Prop :=
  ∃ n, m (cs.drop n) = some g ∧ ∀ k, k < n → m (cs.drop k) = none

/-- The scan `reSearch` returns exactly the leftmost match (the semantics
of `re.search`). -/
theorem leftmostMatch_iff (m : List Char → Option String) (cs : List Char)
    (g : String) : leftmostMatch m cs g ↔ reSearch m cs = some g := by
  induction cs with
  | nil =>
      constructor
      · rintro ⟨n, h1, _⟩
        simpa [reSearch] using h1
      · intro h
        exact ⟨0, by simpa [reSearch] using h, by omega⟩
  | cons c rest ih =>
      cases hm : m (c :: rest) with
      | some g0 =>
          constructor
          · rintro ⟨n, h1, h2⟩
            cases n with
            | zero =>
                simp only [List.drop_zero] at h1
                simp [reSearch, hm, hm.symm.trans h1]
            | succ j =>
                exact absurd (h2 0 (Nat.succ_pos j))
                  (by simp [hm])
          · intro h
            simp only [reSearch, hm] at h
            exact ⟨0, by simpa using hm.trans h, by omega⟩
      | none =>
          constructor
          · rintro ⟨n, h1, h2⟩
            cases n with
            | zero =>
                simp only [List.drop_zero] at h1
                exact absurd h1 (by simp [hm])
            | succ j =>
                simp only [reSearch, hm]
                refine ih.mp ⟨j, by simpa [List.drop_succ_cons] using h1, ?_⟩
                intro k hk
                have := h2 (k + 1) (by omega)
                simpa [List.drop_succ_cons] using this
          · intro h
            simp only [reSearch, hm] at h
            obtain ⟨j, h1, h2⟩ := ih.mpr h
            refine ⟨j + 1, by simpa [List.drop_succ_cons] using h1, ?_⟩
            intro k hk
            cases k with
            | zero => simpa using hm
            | succ i =>
                have := h2 i (by omega)
                simpa [List.drop_succ_cons] using this

/-- Characterization of one step of the pattern loop: a cons either
returns its own leftmost match's in-range value, or (when its leftmost
match is absent or out of range) defers to the remaining patterns. -/
theorem searchLoop_cons_iff (m : List Char → Option String)
    (ms : List (List Char → Option String)) (cs : List Char) (v : ℚ) :
    searchLoop (m :: ms) cs = some v ↔
      ((∃ g, reSearch m cs = some g ∧ scoreInRange (ratOfNum g) = true ∧
          v = ratOfNum g)
       ∨ ((∀ g, reSearch m cs = some g → scoreInRange (ratOfNum g) = false)
          ∧ searchLoop ms cs = some v)) := by
  cases hm : reSearch m cs with
  | some g0 =>
      by_cases r : scoreInRange (ratOfNum g0) = true
      · simp only [searchLoop, hm]
        rw [if_pos r]
        constructor
        · intro hv
          exact Or.inl ⟨g0, rfl, r, (Option.some.inj hv).symm⟩
        · rintro (⟨g, hg, hr, hv⟩ | ⟨hall, _⟩)
          · obtain rfl := Option.some.inj hg
            rw [hv]
          · rw [hall g0 rfl] at r
            exact absurd r (by simp)
      · have rf : scoreInRange (ratOfNum g0) = false := by simpa using r
        simp only [searchLoop, hm]
        rw [if_neg (by simp [rf])]
        constructor
        · intro hv
          refine Or.inr ⟨?_, hv⟩
          intro g hg
          obtain rfl := Option.some.inj hg
          exact rf
        · rintro (⟨g, hg, hr, hv⟩ | ⟨_, h⟩)
          · obtain rfl := Option.some.inj hg
            rw [hr] at rf
            exact absurd rf (by simp)
          · exact h
  | none =>
      simp only [searchLoop, hm]
      constructor
      · intro hv
        exact Or.inr ⟨fun g hg => absurd hg (by simp), hv⟩
      · rintro (⟨g, hg, _, _⟩ | ⟨_, h⟩)
        · exact absurd hg (by simp)
        · exact h

/-- C6 amended: the parser considers, for each of the three patterns in
order, only the leftmost match: it returns the value of the first pattern
whose leftmost match is in range `[0, 10]`, and `None` when every
pattern's leftmost match is absent or out of range — so an in-range
occurrence of a pattern later in the text than that pattern's own
out-of-range leftmost match is never considered (see the
counterexample). -/
theorem c6_first_match_only (report : String) (v : ℚ) :
    parse_risk_score report = some v ↔
      ((∃ g, leftmostMatch matchP1At (lowerChars report) g ∧
          scoreInRange (ratOfNum g) = true ∧ v = ratOfNum g)
       ∨ ((∀ g, leftmostMatch matchP1At (lowerChars report) g →
            scoreInRange (ratOfNum g) = false)
          ∧ ∃ g, leftmostMatch matchP2At (lowerChars report) g ∧
              scoreInRange (ratOfNum g) = true ∧ v = ratOfNum g)
       ∨ ((∀ g, leftmostMatch matchP1At (lowerChars report) g →
            scoreInRange (ratOfNum g) = false)
          ∧ (∀ g, leftmostMatch matchP2At (lowerChars report) g →
            scoreInRange (ratOfNum g) = false)
          ∧ ∃ g, leftmostMatch matchP3At (lowerChars report) g ∧
              scoreInRange (ratOfNum g) = true ∧ v = ratOfNum g)) := by
  unfold parse_risk_score
  rw [searchLoop_cons_iff, searchLoop_cons_iff, searchLoop_cons_iff]
  simp only [leftmostMatch_iff, searchLoop]
  constructor
  · rintro (h | ⟨ha, h | ⟨hb, h | ⟨hc, habs⟩⟩⟩)
    · exact Or.inl h
    · exact Or.inr (Or.inl ⟨ha, h⟩)
    · exact Or.inr (Or.inr ⟨ha, hb, h⟩)
    · exact absurd habs (by simp)
  · rintro (h | ⟨ha, h⟩ | ⟨ha, hb, h⟩)
    · exact Or.inl h
    · exact Or.inr ⟨ha, Or.inl h⟩
    · exact Or.inr ⟨ha, Or.inr ⟨hb, Or.inl h⟩⟩

end SocScan
